import Mathlib

/-
  Verification of the collaboration core of the Server_dev repository
  (apps `collaboration/models.py` and `collaboration/views.py`).

  The Django models and views are embedded shallowly: the database is an
  explicit record of lists, `ValidationError` is `Except.error` carrying the
  message string, and each view is a function from a database state (plus the
  request parameters) to an outcome together with the successor state.
  Timestamps are natural numbers; `timezone.now()` is an explicit `now`
  argument, request-scoped as in Django.  Emails are plain strings.
-/

namespace Collab

abbrev UserId := Nat
abbrev ProjectId := Nat
abbrev Time := Nat

/-- Embedding of `timezone.timedelta(days=30)` measured in seconds. -/
def thirtyDays : Time := 30 * 24 * 60 * 60

/-- The fields of `DevOps.models.Project` that the collaboration core reads:
primary key, `owner` foreign key and the `is_active` flag. -/
structure Project where
  id : ProjectId
  owner : UserId
  is_active : Bool
deriving DecidableEq, Repr

/-- The fields of the user model consulted by the collaboration core. -/
structure UserRec where
  id : UserId
  email : String
deriving DecidableEq, Repr

/-- Embedding of `ProjectInvitation.INVITATION_STATUS` (collaboration/models.py lines
14-19).  Note there is no `cancelled` value. -/
def INVITATION_STATUS : List String := ["pending", "accepted", "declined", "expired"]

/-- Embedding of `ProjectCollaborator.ROLE_CHOICES` (collaboration/models.py lines 124-128). -/
def ROLE_CHOICES : List String := ["viewer", "contributor", "admin"]

/-- A row of the `ProjectInvitation` table (collaboration/models.py lines
13-29). -/
structure ProjectInvitation where
  id : Nat
  project : ProjectId
  inviter : UserId
  invitee : Option UserId
  email : Option String
  token : Nat
  status : String
  created_at : Time
  accepted_at : Option Time
  expires_at : Option Time
deriving DecidableEq, Repr

/-- A row of the `ProjectCollaborator` table (collaboration/models.py lines
122-134). -/
structure ProjectCollaborator where
  project : ProjectId
  user : UserId
  role : String
  added_at : Time
  added_by : Option UserId
deriving DecidableEq, Repr

/-- The backing store.  `outbox` records the ids of invitations for which an
invitation email has been dispatched (`send_mail` calls). -/
structure DB where
  projects : List Project
  users : List UserRec
  invitations : List ProjectInvitation
  collaborators : List ProjectCollaborator
  outbox : List Nat
deriving DecidableEq, Repr

/-- Embedding of `ProjectInvitation.is_expired` (models.py lines 77-82):
`timezone.now() > self.expires_at` when `expires_at` is set, else `False`. -/
def ProjectInvitation.is_expired (inv : ProjectInvitation) (now : Time) : Bool :=
  match inv.expires_at with
  | some e => decide (e < now)
  | none => false

/-- The already-a-collaborator test of `ProjectInvitation.clean` (models.py
lines 58-62): raises when the invitee already has a collaborator row. -/
def alreadyCollaboratorCheck (db : DB) (inv : ProjectInvitation) : Except String Unit :=
  match inv.invitee with
  | some u =>
    if db.collaborators.any (fun c => c.project == inv.project && c.user == u) then
      .error "User is already a collaborator on this project"
    else .ok ()
  | none => .ok ()

/-- Embedding of `ProjectInvitation.clean` (models.py lines 45-66).  The recipient must be
exactly one of invitee/email.  The already-a-collaborator check runs inside
`try: ... except Exception: pass`, so the `ValidationError` it raises is
swallowed and the check has no effect on the outcome. -/
def ProjectInvitation.clean (db : DB) (inv : ProjectInvitation) : Except String Unit :=
  if inv.invitee.isNone && inv.email.isNone then
    .error "Either invitee user or email must be provided"
  else if inv.invitee.isSome && inv.email.isSome then
    .error "Cannot specify both invitee user and email"
  else
    match alreadyCollaboratorCheck db inv with
    | _ => .ok ()

/-- The part of the Django `clean_fields` step relevant here: `status` must be one of
the enumerated `INVITATION_STATUS` choices. -/
def ProjectInvitation.clean_fields (inv : ProjectInvitation) : Except String Unit :=
  if INVITATION_STATUS.contains inv.status then .ok ()
  else .error "Value is not a valid choice"

/-- The Django `validate_unique` step for the `unique_together` constraints
`(project, invitee)` and `(project, email)` (models.py lines 36-39); rows with
a NULL value in the pair are skipped, the row itself is excluded by pk. -/
def ProjectInvitation.validate_unique (db : DB) (inv : ProjectInvitation) : Except String Unit :=
  let others := db.invitations.filter (fun i => i.id != inv.id)
  if inv.invitee.isSome && others.any (fun i => i.project == inv.project && i.invitee == inv.invitee) then
    .error "Project Invitation with this Project and Invitee already exists"
  else if inv.email.isSome && others.any (fun i => i.project == inv.project && i.email == inv.email) then
    .error "Project Invitation with this Project and Email already exists"
  else .ok ()

/-- The Django `Model.full_clean` sequence: field choices, then `clean`, then
`validate_unique`. -/
def ProjectInvitation.full_clean (db : DB) (inv : ProjectInvitation) : Except String Unit :=
  match inv.clean_fields with
  | .error e => .error e
  | .ok _ =>
    match ProjectInvitation.clean db inv with
    | .error e => .error e
    | .ok _ => ProjectInvitation.validate_unique db inv

/-- Persisting an invitation row: update in place by pk, or insert. -/
def dbSetInvitation (db : DB) (inv : ProjectInvitation) : DB :=
  if db.invitations.any (fun i => i.id == inv.id) then
    { db with invitations := db.invitations.map (fun i => if i.id == inv.id then inv else i) }
  else
    { db with invitations := db.invitations ++ [inv] }

/-- The expiry-defaulting step of `ProjectInvitation.save` (models.py lines
71-73): set `expires_at` to now + 30 days when it is unset. -/
def saveExpiryDefault (inv : ProjectInvitation) (now : Time) : ProjectInvitation :=
  if inv.expires_at.isNone then { inv with expires_at := some (now + thirtyDays) } else inv

/-- Embedding of `ProjectInvitation.save` (models.py lines 68-75): `full_clean` first, then
default `expires_at` to now + 30 days if unset, then persist. -/
def ProjectInvitation.save (db : DB) (inv : ProjectInvitation) (now : Time) :
    Except String (DB × ProjectInvitation) :=
  match ProjectInvitation.full_clean db inv with
  | .error e => .error e
  | .ok _ =>
    let inv1 := saveExpiryDefault inv now
    .ok (dbSetInvitation db inv1, inv1)

/-- Embedding of `ProjectInvitation.accept` (models.py lines 91-105): reject expired or
non-pending invitations, set status/accepted_at, bind `invitee` to the acting
user only when it was unset, then `save`. -/
def ProjectInvitation.accept (db : DB) (inv : ProjectInvitation) (user : Option UserId) (now : Time) :
    Except String (DB × ProjectInvitation) :=
  if inv.is_expired now then .error "Invitation has expired"
  else if inv.status != "pending" then .error "Invitation is not pending"
  else
    let inv1 := { inv with status := "accepted", accepted_at := some now }
    let inv2 := match user, inv1.invitee with
      | some u, none => { inv1 with invitee := some u }
      | _, _ => inv1
    ProjectInvitation.save db inv2 now

/-- Embedding of `ProjectInvitation.decline` (models.py lines 107-113). -/
def ProjectInvitation.decline (db : DB) (inv : ProjectInvitation) (now : Time) :
    Except String (DB × ProjectInvitation) :=
  if inv.status != "pending" then .error "Invitation is not pending"
  else ProjectInvitation.save db { inv with status := "declined" } now

/-- Embedding of `ProjectInvitation.expire` (models.py lines 115-119).  Defined in the
source but never called from any code path. -/
def ProjectInvitation.expire (db : DB) (inv : ProjectInvitation) (now : Time) :
    Except String (DB × ProjectInvitation) :=
  if inv.status == "pending" then ProjectInvitation.save db { inv with status := "expired" } now
  else .ok (db, inv)

/-- Embedding of `ProjectCollaborator.clean` (models.py lines 145-151): the project owner
may not be added as a collaborator. -/
def ProjectCollaborator.clean (db : DB) (c : ProjectCollaborator) : Except String Unit :=
  match db.projects.find? (fun p => p.id == c.project) with
  | some p => if c.user == p.owner then .error "Project owner cannot be added as a collaborator" else .ok ()
  | none => .ok ()

/-- Embedding of `ProjectCollaborator.objects.create` (views.py lines 306-311).  The Django
`objects.create` call persists without running `full_clean`, so the model-level
owner check in `ProjectCollaborator.clean` does not run; only the database
unique constraint on `(project, user)` applies. -/
def collaboratorCreate (db : DB) (c : ProjectCollaborator) : Except String DB :=
  if db.collaborators.any (fun x => x.project == c.project && x.user == c.user) then
    .error "IntegrityError"
  else .ok { db with collaborators := db.collaborators ++ [c] }

/-- Membership test for `invitation.project.owner == request.user`. -/
def projectOwnerIs (db : DB) (pid : ProjectId) (user : UserId) : Bool :=
  match db.projects.find? (fun p => p.id == pid) with
  | some p => p.owner == user
  | none => false

/-- The permission test shared verbatim by `resend_invitation_ajax` (views.py
lines 537-544) and `cancel_invitation_ajax` (views.py lines 585-592): project
owner, or a collaborator row with role `admin`.  The inviter of the invitation is
not consulted. -/
def ajaxManagePermitted (db : DB) (inv : ProjectInvitation) (user : UserId) : Bool :=
  projectOwnerIs db inv.project user ||
    db.collaborators.any (fun c => c.project == inv.project && c.user == user && c.role == "admin")

/-- Embedding of `ProjectCollaboratorMixin.has_permission` (views.py lines 86-104): owner,
or the role of the collaborator row is `admin`. -/
def ProjectCollaboratorMixin.has_permission (db : DB) (project : Project) (user : UserId) (authed : Bool) : Bool :=
  if !authed then false
  else if project.owner == user then true
  else
    match db.collaborators.find? (fun c => c.project == project.id && c.user == user) with
    | some c => c.role == "admin"
    | none => false

/-- Embedding of `ProjectCollaboratorListView.has_view_permission` (views.py lines
373-386): owner, or any collaborator row regardless of role. -/
def ProjectCollaboratorListView.has_view_permission (db : DB) (project : Project) (user : UserId) (authed : Bool) : Bool :=
  if !authed then false
  else if project.owner == user then true
  else (db.collaborators.find? (fun c => c.project == project.id && c.user == user)).isSome

/-- Outcomes of the `accept_invitation` view. -/
inductive AcceptOutcome where
  | notFound
  | invalidStatus
  | expired
  | validationFailed (msg : String)
  | integrityFailure
  | success
deriving DecidableEq, Repr

/-- Embedding of `accept_invitation` (views.py lines 280-325): look the invitation up by
token, reject non-pending then expired ones with messages and no state change,
call the model `accept` method (whose `ValidationError` is caught, leaving the
state unchanged because `save` aborted), then `ProjectCollaborator.objects.create`
with role `viewer` and `added_by = invitation.inviter`.  A database
`IntegrityError` from the create is not caught; the invitation update already
committed. -/
def accept_invitation (db : DB) (actingUser : UserId) (token : Nat) (now : Time) :
    AcceptOutcome × DB :=
  match db.invitations.find? (fun i => i.token == token) with
  | none => (.notFound, db)
  | some invitation =>
    if invitation.status != "pending" then (.invalidStatus, db)
    else if invitation.is_expired now then (.expired, db)
    else
      match ProjectInvitation.accept db invitation (some actingUser) now with
      | .error msg => (.validationFailed msg, db)
      | .ok (db1, inv1) =>
        match collaboratorCreate db1
            { project := inv1.project, user := actingUser, role := "viewer",
              added_at := now, added_by := some inv1.inviter } with
        | .error _ => (.integrityFailure, db1)
        | .ok db2 => (.success, db2)

/-- Outcomes of the AJAX invitation views (POST requests; a non-POST request
returns an invalid-method response before touching any state). -/
inductive AjaxOutcome where
  | notFound
  | permissionDenied
  | notPending
  | saveFailed (msg : String)
  | success
deriving DecidableEq, Repr

/-- Embedding of `resend_invitation_ajax` (views.py lines 522-567): permission check (owner
or admin collaborator), pending check, then `expires_at = now + 30 days` and
`save`.  There is no expiry check, and the email re-send call is commented out
in the source, so the outbox is untouched. -/
def resend_invitation_ajax (db : DB) (actingUser : UserId) (invitationId : Nat) (now : Time) :
    AjaxOutcome × DB :=
  match db.invitations.find? (fun i => i.id == invitationId) with
  | none => (.notFound, db)
  | some invitation =>
    if !(ajaxManagePermitted db invitation actingUser) then (.permissionDenied, db)
    else if invitation.status != "pending" then (.notPending, db)
    else
      match ProjectInvitation.save db { invitation with expires_at := some (now + thirtyDays) } now with
      | .error msg => (.saveFailed msg, db)
      | .ok (db1, _) => (.success, db1)

/-- Embedding of `cancel_invitation_ajax` (views.py lines 570-611): permission check (owner
or admin collaborator), pending check, then an assignment of the status value "expired"
and `save` — the status written is the `expired` choice, there is no
`cancelled` value. -/
def cancel_invitation_ajax (db : DB) (actingUser : UserId) (invitationId : Nat) (now : Time) :
    AjaxOutcome × DB :=
  match db.invitations.find? (fun i => i.id == invitationId) with
  | none => (.notFound, db)
  | some invitation =>
    if !(ajaxManagePermitted db invitation actingUser) then (.permissionDenied, db)
    else if invitation.status != "pending" then (.notPending, db)
    else
      match ProjectInvitation.save db { invitation with status := "expired" } now with
      | .error msg => (.saveFailed msg, db)
      | .ok (db1, _) => (.success, db1)

/-- Outcomes of `ProjectInvitationCreateView.form_valid`. -/
inductive CreateOutcome where
  | formInvalid (msg : String)
  | success
deriving DecidableEq, Repr

/-- Embedding of `ProjectInvitationCreateView.form_valid` (views.py lines 187-269): build
the instance with the form fields plus `project` and `inviter`, save (running
the model validation), and on success dispatch the invitation email.  A
`ValidationError` is caught and turned into form errors with no state
change. -/
def invitation_create (db : DB) (project : Project) (inviter : UserId)
    (invitee : Option UserId) (email : Option String) (expires_at : Option Time)
    (newId : Nat) (newToken : Nat) (now : Time) : CreateOutcome × DB :=
  let inst : ProjectInvitation :=
    { id := newId, project := project.id, inviter := inviter, invitee := invitee,
      email := email, token := newToken, status := "pending", created_at := now,
      accepted_at := none, expires_at := expires_at }
  match ProjectInvitation.save db inst now with
  | .error msg => (.formInvalid msg, db)
  | .ok (db1, inv1) => (.success, { db1 with outbox := db1.outbox ++ [inv1.id] })

/-- Status of the invitation carrying a given token, as re-fetched from the
store. -/
def DB.invStatus (db : DB) (token : Nat) : Option String :=
  (db.invitations.find? (fun i => i.token == token)).map (fun i => i.status)

/-- Status of the invitation with a given pk, as re-fetched from the store. -/
def DB.invStatusById (db : DB) (invitationId : Nat) : Option String :=
  (db.invitations.find? (fun i => i.id == invitationId)).map (fun i => i.status)

/-- Expiry of the invitation with a given pk, as re-fetched from the store. -/
def DB.invExpiresById (db : DB) (invitationId : Nat) : Option (Option Time) :=
  (db.invitations.find? (fun i => i.id == invitationId)).map (fun i => i.expires_at)

/-- Invitee of the invitation carrying a given token, as re-fetched from the
store. -/
def DB.invInviteeByToken (db : DB) (token : Nat) : Option (Option UserId) :=
  (db.invitations.find? (fun i => i.token == token)).map (fun i => i.invitee)

/-- Number of collaborator rows for a (project, user) pair. -/
def countCollab (db : DB) (pid : ProjectId) (u : UserId) : Nat :=
  (db.collaborators.filter (fun c => c.project == pid && c.user == u)).length

/-- Boolean pairwise distinctness along a list. -/
def pairwiseDistinct (f : α → α → Bool) : List α → Bool
  | [] => true
  | x :: xs => xs.all (f x) && pairwiseDistinct f xs

/-- The database unique constraint on `(project, user)` collaborator rows. -/
def DB.wfCollaborators (db : DB) : Bool :=
  pairwiseDistinct (fun a b => !(a.project == b.project && a.user == b.user)) db.collaborators

/-- Uniqueness of invitation pks and tokens. -/
def DB.wfInvitations (db : DB) : Bool :=
  pairwiseDistinct (fun a b => a.id != b.id && a.token != b.token) db.invitations

/-- The membership-view permission as the specification words it: any
authenticated collaborator, or the owner, may view the member list. -/
def specCanViewMembers (db : DB) (project : Project) (u : UserId) (authed : Bool) : Bool :=
  authed && (project.owner == u ||
    db.collaborators.any (fun c => c.project == project.id && c.user == u))

/-- The membership-mutation permission as the specification words it: only the
owner or an admin collaborator may mutate membership. -/
def specCanManageMembers (db : DB) (project : Project) (u : UserId) (authed : Bool) : Bool :=
  authed && (project.owner == u ||
    db.collaborators.any (fun c => c.project == project.id && c.user == u && c.role == "admin"))

/- Concrete states used to evaluate the operations.  User 0 (alice) owns
project 1; 1 is bob, 2 is carol, 3 is dave. -/

def P1 : Project := { id := 1, owner := 0, is_active := true }

/-- A pending, unexpired email-only invitation addressed to the address of bob. -/
def dbEmailOnlyInvite : DB :=
  { projects := [P1],
    users := [⟨0, "alice@x.com"⟩, ⟨1, "bob@x.com"⟩],
    invitations := [
      { id := 10, project := 1, inviter := 0, invitee := none,
        email := some "bob@x.com", token := 100, status := "pending",
        created_at := 0, accepted_at := none, expires_at := some 1000 }],
    collaborators := [], outbox := [10] }

/-- A pending, unexpired invitation row naming bob (1) as invitee. -/
def invPending10 : ProjectInvitation :=
  { id := 10, project := 1, inviter := 0, invitee := some 1,
    email := none, token := 100, status := "pending",
    created_at := 0, accepted_at := none, expires_at := some 1000 }

/-- A pending, unexpired invitation naming bob as invitee. -/
def dbInviteePending : DB :=
  { projects := [P1],
    users := [⟨0, "alice@x.com"⟩, ⟨1, "bob@x.com"⟩],
    invitations := [invPending10],
    collaborators := [], outbox := [10] }

/-- A pending invitation naming bob whose expiry (100) has already passed at
the observation time 500. -/
def dbPendingExpired : DB :=
  { projects := [P1],
    users := [⟨0, "alice@x.com"⟩, ⟨1, "bob@x.com"⟩],
    invitations := [
      { id := 10, project := 1, inviter := 0, invitee := some 1,
        email := none, token := 100, status := "pending",
        created_at := 0, accepted_at := none, expires_at := some 100 }],
    collaborators := [], outbox := [] }

/-- Bob is already a collaborator of project 1; no invitations yet. -/
def dbAlreadyCollab : DB :=
  { projects := [P1],
    users := [⟨0, "alice@x.com"⟩, ⟨1, "bob@x.com"⟩],
    invitations := [],
    collaborators := [
      { project := 1, user := 1, role := "viewer", added_at := 0, added_by := some 0 }],
    outbox := [] }

/-- Only the owner and bob exist; no invitations, no collaborators. -/
def dbUsersOnly : DB :=
  { projects := [P1],
    users := [⟨0, "alice@x.com"⟩, ⟨1, "bob@x.com"⟩],
    invitations := [], collaborators := [], outbox := [] }

/-- Carol (2) created the pending invitation for dave (3) and holds only a
`contributor` collaborator row. -/
def dbInviterContributor : DB :=
  { projects := [P1],
    users := [⟨0, "alice@x.com"⟩, ⟨2, "carol@x.com"⟩, ⟨3, "dave@x.com"⟩],
    invitations := [
      { id := 10, project := 1, inviter := 2, invitee := some 3,
        email := none, token := 100, status := "pending",
        created_at := 0, accepted_at := none, expires_at := some 1000 }],
    collaborators := [
      { project := 1, user := 2, role := "contributor", added_at := 0, added_by := some 0 }],
    outbox := [] }

/-- Dave (3) already holds a collaborator row while a pending, unexpired
email-only invitation to his address is outstanding. -/
def dbCollabAndEmailInvite : DB :=
  { projects := [P1],
    users := [⟨0, "alice@x.com"⟩, ⟨3, "dave@x.com"⟩],
    invitations := [
      { id := 11, project := 1, inviter := 0, invitee := none,
        email := some "dave@x.com", token := 300, status := "pending",
        created_at := 0, accepted_at := none, expires_at := some 1000 }],
    collaborators := [
      { project := 1, user := 3, role := "contributor", added_at := 0, added_by := some 0 }],
    outbox := [] }

/-- A second project (id 2, owner 5) with a pending, unexpired email-only
invitation; user 6 is authenticated and presents the token. -/
def dbEmailOnlySecond : DB :=
  { projects := [{ id := 2, owner := 5, is_active := true }],
    users := [⟨5, "eve@y.com"⟩, ⟨6, "frank@y.com"⟩],
    invitations := [
      { id := 12, project := 2, inviter := 5, invitee := none,
        email := some "frank@y.com", token := 400, status := "pending",
        created_at := 0, accepted_at := none, expires_at := some 2000 }],
    collaborators := [], outbox := [] }

/-- Carol (2) holds a `viewer` collaborator row on project 1. -/
def dbViewerCollab : DB :=
  { projects := [P1],
    users := [⟨0, "alice@x.com"⟩, ⟨2, "carol@x.com"⟩],
    invitations := [],
    collaborators := [
      { project := 1, user := 2, role := "viewer", added_at := 0, added_by := some 0 }],
    outbox := [] }

end Collab

namespace Collab

/-- Claim C2: the spec says accepting a pending, unexpired invitation with an
authenticated user succeeds and binds `invitee` for an email-only invitation.
In the code, `accept` assigns `self.invitee = user` without clearing `email`,
and the own `clean` of the model then rejects the row with "Cannot specify both
invitee user and email", so accepting an email-only invitation always fails
and nothing is persisted. -/
theorem claim_C2_email_accept_fails :
    accept_invitation dbEmailOnlyInvite 1 100 500 =
      (.validationFailed "Cannot specify both invitee user and email", dbEmailOnlyInvite) := by
  decide

/-- Claim C5: bob already holds a collaborator row of project 1 and his
address is "bob@x.com", yet creating an invitation succeeds in both recipient
forms — the already-a-collaborator `ValidationError` is raised inside
`try: ... except Exception: pass` and swallowed, and the bare-email form is
never checked against collaborators at all. -/
theorem claim_C5_already_collaborator_not_enforced :
    dbAlreadyCollab.collaborators.any (fun c => c.project == 1 && c.user == 1) = true ∧
    dbAlreadyCollab.users.any (fun u => u.id == 1 && u.email == "bob@x.com") = true ∧
    (invitation_create dbAlreadyCollab P1 0 (some 1) none none 20 200 50).1 = .success ∧
    (invitation_create dbAlreadyCollab P1 0 none (some "bob@x.com") none 21 201 50).1 = .success := by
  decide

/-- Claim C6: the owner invariant is violated by a reachable sequence: the
owner (user 0) is invited to their own project — creation succeeds since no
path checks the owner — and then accepts; `ProjectCollaborator.objects.create`
bypasses `ProjectCollaborator.clean`, so a collaborator row for the owner is
created. -/
theorem claim_C6_owner_collaborator_reachable :
    (invitation_create dbUsersOnly P1 0 (some 0) none none 10 100 50).1 = .success ∧
    (accept_invitation (invitation_create dbUsersOnly P1 0 (some 0) none none 10 100 50).2
        0 100 60).1 = .success ∧
    countCollab (accept_invitation (invitation_create dbUsersOnly P1 0 (some 0) none none 10 100 50).2
        0 100 60).2 1 0 = 1 ∧
    projectOwnerIs (accept_invitation (invitation_create dbUsersOnly P1 0 (some 0) none none 10 100 50).2
        0 100 60).2 1 0 = true := by
  decide

/-- Claim C3 counterexample: accepting the pending invitation whose expiry
(100) has passed at time 500 reports the expiry, but the re-fetched status is
still "pending" — the code never flips it to "expired" (the `expire`
method of the model is never called). -/
theorem claim_C3_counterexample :
    (accept_invitation dbPendingExpired 1 100 500).1 = .expired ∧
    (accept_invitation dbPendingExpired 1 100 500).2.invStatus 100 = some "pending" := by
  decide

/-- Claim C4 counterexample: cancelling the pending invitation succeeds but
writes the status value "expired"; no distinct "cancelled" value exists among
the enumerated status choices. -/
theorem claim_C4_counterexample :
    (cancel_invitation_ajax dbInviteePending 0 10 500).1 = .success ∧
    (cancel_invitation_ajax dbInviteePending 0 10 500).2.invStatusById 10 = some "expired" ∧
    INVITATION_STATUS.contains "cancelled" = false := by
  decide

/-- Claim C7 counterexample: carol (2) is the original inviter of invitation
10 and holds a contributor row, yet both cancel and resend answer
"Permission denied" — the permission test consults only the owner and admin
collaborators, never the inviter. -/
theorem claim_C7_counterexample :
    dbInviterContributor.invitations.any (fun i => i.id == 10 && i.inviter == 2) = true ∧
    cancel_invitation_ajax dbInviterContributor 2 10 50 = (.permissionDenied, dbInviterContributor) ∧
    resend_invitation_ajax dbInviterContributor 2 10 50 = (.permissionDenied, dbInviterContributor) := by
  decide

/-- Claim C8 counterexample: invitation 10 is pending and already expired at
time 500, yet resend succeeds (no `Expired` failure), extends the expiry to
now + 30 days, and dispatches no email (the outbox is unchanged). -/
theorem claim_C8_counterexample :
    ((dbPendingExpired.invitations.find? (fun i => i.id == 10)).map
      (fun i => i.is_expired 500)) = some true ∧
    (resend_invitation_ajax dbPendingExpired 0 10 500).1 = .success ∧
    (resend_invitation_ajax dbPendingExpired 0 10 500).2.invExpiresById 10 =
      some (some (500 + thirtyDays)) ∧
    (resend_invitation_ajax dbPendingExpired 0 10 500).2.outbox = dbPendingExpired.outbox := by
  decide

/-- Claim C10 counterexample: invitation 12 is pending and unexpired, user 6
is authenticated and presents its token, yet accept fails (the invitation is
email-only, and binding the invitee makes the own validation of the model reject
the row) and the state is unchanged. -/
theorem claim_C10_counterexample :
    (accept_invitation dbEmailOnlySecond 6 400 10).1 ≠ .success ∧
    (accept_invitation dbEmailOnlySecond 6 400 10).2 = dbEmailOnlySecond := by
  decide

/-- Claim C1 counterexample: dave (3) already holds a collaborator row when he
presents the token of the pending, unexpired email-only invitation 11.
Accept fails and leaves the invitation pending while a collaborator row for
(project 1, dave) exists, so the claimed disjunction — accepted with exactly
one row, or pending with no row — is false after the operation. -/
theorem claim_C1_counterexample :
    ¬ (((accept_invitation dbCollabAndEmailInvite 3 300 500).2.invStatus 300 = some "accepted" ∧
        countCollab (accept_invitation dbCollabAndEmailInvite 3 300 500).2 1 3 = 1) ∨
       ((accept_invitation dbCollabAndEmailInvite 3 300 500).2.invStatus 300 = some "pending" ∧
        countCollab (accept_invitation dbCollabAndEmailInvite 3 300 500).2 1 3 = 0)) := by
  decide

end Collab

namespace Collab

/- Auxiliary lemmas about the store operations. -/

theorem dbSetInvitation_collaborators (db : DB) (inv : ProjectInvitation) :
    (dbSetInvitation db inv).collaborators = db.collaborators := by
  unfold dbSetInvitation; split <;> rfl

theorem dbSetInvitation_outbox (db : DB) (inv : ProjectInvitation) :
    (dbSetInvitation db inv).outbox = db.outbox := by
  unfold dbSetInvitation; split <;> rfl

theorem saveExpiryDefault_id (inv : ProjectInvitation) (now : Time) :
    (saveExpiryDefault inv now).id = inv.id := by
  unfold saveExpiryDefault; split <;> rfl

theorem saveExpiryDefault_token (inv : ProjectInvitation) (now : Time) :
    (saveExpiryDefault inv now).token = inv.token := by
  unfold saveExpiryDefault; split <;> rfl

theorem saveExpiryDefault_status (inv : ProjectInvitation) (now : Time) :
    (saveExpiryDefault inv now).status = inv.status := by
  unfold saveExpiryDefault; split <;> rfl

theorem saveExpiryDefault_project (inv : ProjectInvitation) (now : Time) :
    (saveExpiryDefault inv now).project = inv.project := by
  unfold saveExpiryDefault; split <;> rfl

theorem saveExpiryDefault_inviter (inv : ProjectInvitation) (now : Time) :
    (saveExpiryDefault inv now).inviter = inv.inviter := by
  unfold saveExpiryDefault; split <;> rfl

theorem saveExpiryDefault_invitee (inv : ProjectInvitation) (now : Time) :
    (saveExpiryDefault inv now).invitee = inv.invitee := by
  unfold saveExpiryDefault; split <;> rfl

theorem save_ok (db : DB) (inv : ProjectInvitation) (now : Time)
    (hfc : ProjectInvitation.full_clean db inv = .ok ()) :
    ProjectInvitation.save db inv now =
      .ok (dbSetInvitation db (saveExpiryDefault inv now), saveExpiryDefault inv now) := by
  unfold ProjectInvitation.save
  rw [hfc]

theorem find?_isSome_eq_any (p : α → Bool) (l : List α) :
    (l.find? p).isSome = l.any p := by
  induction l with
  | nil => rfl
  | cons x xs ih => cases h : p x <;> simp [List.find?_cons, h, ih]

theorem filter_eq_nil_of_any_eq_false (p : α → Bool) (l : List α)
    (h : l.any p = false) : l.filter p = [] := by
  rw [List.filter_eq_nil_iff]
  intro a ha
  rw [List.any_eq_false] at h
  exact h a ha

theorem count_one_of_pairwise (l : List ProjectCollaborator) (pid : ProjectId) (u : UserId)
    (hpw : pairwiseDistinct (fun a b => !(a.project == b.project && a.user == b.user)) l = true)
    (hany : l.any (fun c => c.project == pid && c.user == u) = true) :
    (l.filter (fun c => c.project == pid && c.user == u)).length = 1 := by
  induction l with
  | nil => simp at hany
  | cons x xs ih =>
    rw [pairwiseDistinct, Bool.and_eq_true, List.all_eq_true] at hpw
    obtain ⟨hx, hxs⟩ := hpw
    by_cases hm : (x.project == pid && x.user == u) = true
    · rw [List.filter_cons, if_pos hm]
      have hxp : x.project = pid := by
        have := (Bool.and_eq_true _ _).mp hm
        exact eq_of_beq this.1
      have hxu : x.user = u := by
        have := (Bool.and_eq_true _ _).mp hm
        exact eq_of_beq this.2
      have hnil : xs.filter (fun c => c.project == pid && c.user == u) = [] := by
        apply filter_eq_nil_of_any_eq_false
        rw [List.any_eq_false]
        intro b hb hbm
        have hcontr := hx b hb
        have hbp : b.project = pid := by
          have := (Bool.and_eq_true _ _).mp hbm
          exact eq_of_beq this.1
        have hbu : b.user = u := by
          have := (Bool.and_eq_true _ _).mp hbm
          exact eq_of_beq this.2
        rw [hxp, hxu, hbp, hbu] at hcontr
        simp at hcontr
      rw [hnil]
      rfl
    · rw [List.filter_cons, if_neg (by simp [hm])]
      rw [List.any_cons, Bool.or_eq_true] at hany
      rcases hany with h1 | h2
      · exact absurd h1 hm
      · exact ih hxs h2

theorem any_id_of_find? (l : List ProjectInvitation) (p : ProjectInvitation → Bool)
    (a : ProjectInvitation) (hfind : l.find? p = some a) :
    l.any (fun i => i.id == a.id) = true := by
  rw [List.any_eq_true]
  exact ⟨a, List.mem_of_find?_eq_some hfind, by simp⟩

theorem find?_update_token (l : List ProjectInvitation) (t : Nat) (a b : ProjectInvitation)
    (hpw : pairwiseDistinct (fun x y => x.id != y.id && x.token != y.token) l = true)
    (hfind : l.find? (fun i => i.token == t) = some a)
    (hid : b.id = a.id) (htok : b.token = a.token) :
    (l.map (fun i => if i.id == b.id then b else i)).find? (fun i => i.token == t) = some b := by
  induction l with
  | nil => simp at hfind
  | cons x xs ih =>
    rw [pairwiseDistinct, Bool.and_eq_true, List.all_eq_true] at hpw
    obtain ⟨hx, hxs⟩ := hpw
    rw [List.find?_cons] at hfind
    cases hm : (x.token == t) with
    | true =>
      rw [hm] at hfind
      have hxa : x = a := by simpa using hfind
      subst hxa
      have hidm : (x.id == b.id) = true := by rw [hid]; simp
      have htm : (b.token == t) = true := by rw [htok]; exact hm
      rw [List.map_cons, List.find?_cons, if_pos hidm, htm]
    | false =>
      rw [hm] at hfind
      simp only [] at hfind
      have hamem : a ∈ xs := List.mem_of_find?_eq_some hfind
      have hne : (x.id != a.id) = true := ((Bool.and_eq_true _ _).mp (hx a hamem)).1
      have hxid : (x.id == b.id) = false := by
        rw [hid]
        rw [bne_iff_ne] at hne
        exact beq_eq_false_iff_ne.mpr hne
      simp only [List.map_cons, List.find?_cons, hxid, Bool.false_eq_true, ite_false, hm]
      exact ih hxs hfind

theorem find?_update_id (l : List ProjectInvitation) (n : Nat) (a b : ProjectInvitation)
    (hpw : pairwiseDistinct (fun x y => x.id != y.id && x.token != y.token) l = true)
    (hfind : l.find? (fun i => i.id == n) = some a)
    (hid : b.id = a.id) :
    (l.map (fun i => if i.id == b.id then b else i)).find? (fun i => i.id == n) = some b := by
  induction l with
  | nil => simp at hfind
  | cons x xs ih =>
    rw [pairwiseDistinct, Bool.and_eq_true, List.all_eq_true] at hpw
    obtain ⟨hx, hxs⟩ := hpw
    rw [List.find?_cons] at hfind
    cases hm : (x.id == n) with
    | true =>
      rw [hm] at hfind
      have hxa : x = a := by simpa using hfind
      subst hxa
      have hidm : (x.id == b.id) = true := by rw [hid]; simp
      have hbn : (b.id == n) = true := by rw [hid]; exact hm
      rw [List.map_cons, List.find?_cons, if_pos hidm, hbn]
    | false =>
      rw [hm] at hfind
      simp only [] at hfind
      have hamem : a ∈ xs := List.mem_of_find?_eq_some hfind
      have hne : (x.id != a.id) = true := ((Bool.and_eq_true _ _).mp (hx a hamem)).1
      have hxid : (x.id == b.id) = false := by
        rw [hid]
        rw [bne_iff_ne] at hne
        exact beq_eq_false_iff_ne.mpr hne
      simp only [List.map_cons, List.find?_cons, hxid, Bool.false_eq_true, ite_false, hm]
      exact ih hxs hfind

theorem dbSetInvitation_find_id (db : DB) (inv b : ProjectInvitation) (n : Nat)
    (hwfI : db.wfInvitations = true)
    (hfind : db.invitations.find? (fun i => i.id == n) = some inv)
    (hid : b.id = inv.id) :
    (dbSetInvitation db b).invitations.find? (fun i => i.id == n) = some b := by
  unfold dbSetInvitation
  have hany : db.invitations.any (fun i => i.id == b.id) = true := by
    rw [List.any_eq_true]
    refine ⟨inv, List.mem_of_find?_eq_some hfind, ?_⟩
    rw [hid]
    simp
  rw [if_pos hany]
  exact find?_update_id db.invitations n inv b hwfI hfind hid

theorem dbSetInvitation_find_token (db : DB) (inv b : ProjectInvitation) (t : Nat)
    (hwfI : db.wfInvitations = true)
    (hfind : db.invitations.find? (fun i => i.token == t) = some inv)
    (hid : b.id = inv.id) (htok : b.token = inv.token) :
    (dbSetInvitation db b).invitations.find? (fun i => i.token == t) = some b := by
  unfold dbSetInvitation
  have hany : db.invitations.any (fun i => i.id == b.id) = true := by
    rw [List.any_eq_true]
    refine ⟨inv, List.mem_of_find?_eq_some hfind, ?_⟩
    rw [hid]
    simp
  rw [if_pos hany]
  exact find?_update_token db.invitations t inv b hwfI hfind hid htok

theorem roleAdmin_eq_any (l : List ProjectCollaborator) (pid : ProjectId) (u : UserId)
    (hpw : pairwiseDistinct (fun a b => !(a.project == b.project && a.user == b.user)) l = true) :
    (match l.find? (fun c => c.project == pid && c.user == u) with
      | some c => c.role == "admin"
      | none => false)
      = l.any (fun c => c.project == pid && c.user == u && c.role == "admin") := by
  induction l with
  | nil => rfl
  | cons x xs ih =>
    rw [pairwiseDistinct, Bool.and_eq_true, List.all_eq_true] at hpw
    obtain ⟨hx, hxs⟩ := hpw
    rw [List.find?_cons, List.any_cons]
    cases hm : (x.project == pid && x.user == u) with
    | true =>
      have hxp : x.project = pid := eq_of_beq ((Bool.and_eq_true _ _).mp hm).1
      have hxu : x.user = u := eq_of_beq ((Bool.and_eq_true _ _).mp hm).2
      have htail : xs.any (fun c => c.project == pid && c.user == u && c.role == "admin") = false := by
        rw [List.any_eq_false]
        intro b hb hbm
        rw [Bool.and_eq_true, Bool.and_eq_true] at hbm
        have hbp : b.project = pid := eq_of_beq hbm.1.1
        have hbu : b.user = u := eq_of_beq hbm.1.2
        have hcontr := hx b hb
        rw [hxp, hxu, hbp, hbu] at hcontr
        simp at hcontr
      rw [htail]
      simp
    | false =>
      simp only [Bool.false_and, Bool.false_or]
      exact ih hxs

theorem view_permission_refines (db : DB) (project : Project) (u : UserId) (authed : Bool) :
    ProjectCollaboratorListView.has_view_permission db project u authed =
      specCanViewMembers db project u authed := by
  unfold ProjectCollaboratorListView.has_view_permission specCanViewMembers
  cases authed with
  | false => rfl
  | true =>
    cases ho : (project.owner == u) with
    | true => simp [ho]
    | false => simp [ho, find?_isSome_eq_any]

theorem manage_permission_refines (db : DB) (project : Project) (u : UserId) (authed : Bool)
    (hwf : db.wfCollaborators = true) :
    ProjectCollaboratorMixin.has_permission db project u authed =
      specCanManageMembers db project u authed := by
  unfold ProjectCollaboratorMixin.has_permission specCanManageMembers
  cases authed with
  | false => rfl
  | true =>
    cases ho : (project.owner == u) with
    | true => simp [ho]
    | false =>
      rw [DB.wfCollaborators] at hwf
      have := roleAdmin_eq_any db.collaborators project.id u hwf
      simp only [Bool.not_true, Bool.false_eq_true, if_false, ho, ite_false, this]
      simp

end Collab

namespace Collab

/-- Claim C9: an authenticated user may view the member list exactly when they
are the owner or hold any collaborator row, and may mutate membership exactly
when they are the owner or an admin collaborator; in particular a viewer (or
contributor) collaborator passes the permission check of the list view but fails
the check of the managing mixin. -/
theorem claim_C9 (db : DB) (project : Project) (u : UserId) (authed : Bool)
    (c : ProjectCollaborator)
    (hwf : db.wfCollaborators = true)
    (hc : c ∈ db.collaborators) (hcp : c.project = project.id)
    (hrole : c.role = "viewer" ∨ c.role = "contributor")
    (howner : project.owner ≠ c.user) :
    ProjectCollaboratorListView.has_view_permission db project u authed =
      specCanViewMembers db project u authed ∧
    ProjectCollaboratorMixin.has_permission db project u authed =
      specCanManageMembers db project u authed ∧
    ProjectCollaboratorListView.has_view_permission db project c.user true = true ∧
    ProjectCollaboratorMixin.has_permission db project c.user true = false := by
  have hwf2 : pairwiseDistinct (fun a b => !(a.project == b.project && a.user == b.user))
      db.collaborators = true := hwf
  have hanyc : db.collaborators.any (fun e => e.project == project.id && e.user == c.user) = true :=
    List.any_eq_true.mpr ⟨c, hc, by simp [hcp]⟩
  have hanyfull : db.collaborators.any
      (fun d => d.project == project.id && d.user == c.user && d.role == "admin") = false := by
    rw [List.any_eq_false]
    intro d hd hdm
    rw [Bool.and_eq_true, Bool.and_eq_true] at hdm
    have hdp : d.project = project.id := eq_of_beq hdm.1.1
    have hdu : d.user = c.user := eq_of_beq hdm.1.2
    have hdr : d.role = "admin" := eq_of_beq hdm.2
    have hq : (db.collaborators.filter
        (fun e => e.project == project.id && e.user == c.user)).length = 1 :=
      count_one_of_pairwise db.collaborators project.id c.user hwf2 hanyc
    obtain ⟨e, he⟩ := List.length_eq_one.mp hq
    have hcmem : c ∈ db.collaborators.filter (fun e => e.project == project.id && e.user == c.user) :=
      List.mem_filter.mpr ⟨hc, by simp [hcp]⟩
    have hdmem : d ∈ db.collaborators.filter (fun e => e.project == project.id && e.user == c.user) :=
      List.mem_filter.mpr ⟨hd, by simp [hdp, hdu]⟩
    rw [he] at hcmem hdmem
    have hce : c = e := by simpa using hcmem
    have hde : d = e := by simpa using hdmem
    rcases hrole with h | h <;> rw [hce, ← hde, hdr] at h <;> simp at h
  have hviewc : specCanViewMembers db project c.user true = true := by
    unfold specCanViewMembers
    simp [hanyc]
  have hmanagec : specCanManageMembers db project c.user true = false := by
    unfold specCanManageMembers
    have hob : (project.owner == c.user) = false := beq_eq_false_iff_ne.mpr howner
    simp [hob, hanyfull]
  refine ⟨view_permission_refines db project u authed,
          manage_permission_refines db project u authed hwf, ?_, ?_⟩
  · rw [view_permission_refines]; exact hviewc
  · rw [manage_permission_refines db project c.user true hwf]; exact hmanagec

/-- Witness for C9: carol (2) holds a viewer row on project 1, so she passes
the list view check, fails the manage check, and both checks agree with the
specification policy at her state. -/
theorem claim_C9_witness :
    ProjectCollaboratorListView.has_view_permission dbViewerCollab P1 2 true =
      specCanViewMembers dbViewerCollab P1 2 true ∧
    ProjectCollaboratorMixin.has_permission dbViewerCollab P1 2 true =
      specCanManageMembers dbViewerCollab P1 2 true ∧
    ProjectCollaboratorListView.has_view_permission dbViewerCollab P1 2 true = true ∧
    ProjectCollaboratorMixin.has_permission dbViewerCollab P1 2 true = false :=
  claim_C9 dbViewerCollab P1 2 true
    { project := 1, user := 2, role := "viewer", added_at := 0, added_by := some 0 }
    (by decide) (by decide) rfl (Or.inl rfl) (by decide)

/-- Claim C3 amended: accepting a pending invitation whose expiry has passed
reports the expiry and leaves the store unchanged — the re-fetched status is
still "pending" (it does not flip to "expired", and never becomes
"accepted"). -/
theorem claim_C3_amended (db : DB) (actingUser : UserId) (tok : Nat) (now : Time)
    (inv : ProjectInvitation)
    (hfind : db.invitations.find? (fun i => i.token == tok) = some inv)
    (hstatus : inv.status = "pending")
    (hexp : inv.is_expired now = true) :
    accept_invitation db actingUser tok now = (.expired, db) ∧
    (accept_invitation db actingUser tok now).2.invStatus tok = some "pending" := by
  have h1 : accept_invitation db actingUser tok now = (.expired, db) := by
    simp [accept_invitation, hfind, hstatus, hexp]
  refine ⟨h1, ?_⟩
  rw [h1]
  simp [DB.invStatus, hfind, hstatus]

/-- Witness for the amended C3 at the concrete expired invitation. -/
theorem claim_C3_witness :
    accept_invitation dbPendingExpired 1 100 500 = (.expired, dbPendingExpired) ∧
    (accept_invitation dbPendingExpired 1 100 500).2.invStatus 100 = some "pending" :=
  claim_C3_amended dbPendingExpired 1 100 500
    { id := 10, project := 1, inviter := 0, invitee := some 1,
      email := none, token := 100, status := "pending",
      created_at := 0, accepted_at := none, expires_at := some 100 }
    rfl rfl (by decide)

end Collab

namespace Collab

/-- Claim C7 amended: cancel and resend are denied exactly when the acting
user is neither the project owner nor an admin collaborator; being the
original inviter confers no permission (the permission test never consults
the inviter field). -/
theorem claim_C7_amended (db : DB) (actingUser : UserId) (invId : Nat) (now : Time)
    (inv : ProjectInvitation)
    (hfind : db.invitations.find? (fun i => i.id == invId) = some inv) :
    ((cancel_invitation_ajax db actingUser invId now).1 = .permissionDenied ↔
      ajaxManagePermitted db inv actingUser = false) ∧
    ((resend_invitation_ajax db actingUser invId now).1 = .permissionDenied ↔
      ajaxManagePermitted db inv actingUser = false) := by
  cases hp : ajaxManagePermitted db inv actingUser with
  | false =>
    constructor
    · simp [cancel_invitation_ajax, hfind, hp]
    · simp [resend_invitation_ajax, hfind, hp]
  | true =>
    constructor
    · cases hs : (inv.status != "pending") with
      | true => simp [cancel_invitation_ajax, hfind, hp, hs]
      | false =>
        cases hsv : ProjectInvitation.save db { inv with status := "expired" } now with
        | error e => simp [cancel_invitation_ajax, hfind, hp, hs, hsv]
        | ok p =>
          obtain ⟨db1, i1⟩ := p
          simp [cancel_invitation_ajax, hfind, hp, hs, hsv]
    · cases hs : (inv.status != "pending") with
      | true => simp [resend_invitation_ajax, hfind, hp, hs]
      | false =>
        cases hsv : ProjectInvitation.save db { inv with expires_at := some (now + thirtyDays) } now with
        | error e => simp [resend_invitation_ajax, hfind, hp, hs, hsv]
        | ok p =>
          obtain ⟨db1, i1⟩ := p
          simp [resend_invitation_ajax, hfind, hp, hs, hsv]

/-- Witness for the amended C7: carol, the inviter with a contributor row, is
denied both operations because she is neither owner nor admin. -/
theorem claim_C7_witness :
    ((cancel_invitation_ajax dbInviterContributor 2 10 50).1 = .permissionDenied ↔
      ajaxManagePermitted dbInviterContributor
        { id := 10, project := 1, inviter := 2, invitee := some 3,
          email := none, token := 100, status := "pending",
          created_at := 0, accepted_at := none, expires_at := some 1000 } 2 = false) ∧
    ((resend_invitation_ajax dbInviterContributor 2 10 50).1 = .permissionDenied ↔
      ajaxManagePermitted dbInviterContributor
        { id := 10, project := 1, inviter := 2, invitee := some 3,
          email := none, token := 100, status := "pending",
          created_at := 0, accepted_at := none, expires_at := some 1000 } 2 = false) :=
  claim_C7_amended dbInviterContributor 2 10 50
    { id := 10, project := 1, inviter := 2, invitee := some 3,
      email := none, token := 100, status := "pending",
      created_at := 0, accepted_at := none, expires_at := some 1000 }
    rfl

end Collab

namespace Collab

/-- Claim C8 amended: resending a pending invitation by a permitted user
succeeds regardless of whether the expiry has already passed (there is no
`Expired` failure), sets `expires_at` to now + 30 days, and dispatches no
email — the outbox and the collaborator table are unchanged. -/
theorem claim_C8_amended (db : DB) (actingUser : UserId) (invId : Nat) (now : Time)
    (inv : ProjectInvitation)
    (hwfI : db.wfInvitations = true)
    (hfind : db.invitations.find? (fun i => i.id == invId) = some inv)
    (hperm : ajaxManagePermitted db inv actingUser = true)
    (hstatus : inv.status = "pending")
    (hfc : ProjectInvitation.full_clean db { inv with expires_at := some (now + thirtyDays) } =
      .ok ()) :
    (resend_invitation_ajax db actingUser invId now).1 = .success ∧
    (resend_invitation_ajax db actingUser invId now).2.invExpiresById invId =
      some (some (now + thirtyDays)) ∧
    (resend_invitation_ajax db actingUser invId now).2.outbox = db.outbox ∧
    (resend_invitation_ajax db actingUser invId now).2.collaborators = db.collaborators := by
  have hsave := save_ok db { inv with expires_at := some (now + thirtyDays) } now hfc
  have hfix : saveExpiryDefault { inv with expires_at := some (now + thirtyDays) } now =
      { inv with expires_at := some (now + thirtyDays) } := by
    unfold saveExpiryDefault
    simp
  rw [hfix] at hsave
  have hbne : (inv.status != "pending") = false := by rw [hstatus]; simp
  have hres : resend_invitation_ajax db actingUser invId now =
      (.success, dbSetInvitation db { inv with expires_at := some (now + thirtyDays) }) := by
    simp [resend_invitation_ajax, hfind, hperm, hbne, hsave]
  rw [hres]
  refine ⟨rfl, ?_, dbSetInvitation_outbox _ _, dbSetInvitation_collaborators _ _⟩
  unfold DB.invExpiresById
  rw [dbSetInvitation_find_id db inv { inv with expires_at := some (now + thirtyDays) } invId
    hwfI hfind rfl]
  rfl

/-- Witness for the amended C8: the pending invitation expired at 100 is
resent by the owner at 500; the resend succeeds and extends the expiry. -/
theorem claim_C8_witness :
    (resend_invitation_ajax dbPendingExpired 0 10 500).1 = .success ∧
    (resend_invitation_ajax dbPendingExpired 0 10 500).2.invExpiresById 10 =
      some (some (500 + thirtyDays)) ∧
    (resend_invitation_ajax dbPendingExpired 0 10 500).2.outbox = dbPendingExpired.outbox ∧
    (resend_invitation_ajax dbPendingExpired 0 10 500).2.collaborators =
      dbPendingExpired.collaborators :=
  claim_C8_amended dbPendingExpired 0 10 500
    { id := 10, project := 1, inviter := 0, invitee := some 1,
      email := none, token := 100, status := "pending",
      created_at := 0, accepted_at := none, expires_at := some 100 }
    (by decide) rfl (by decide) rfl rfl

end Collab

namespace Collab

/-- Claim C4 amended: with a permitted acting user, cancel fails with the
not-pending error when status is not `pending` and changes nothing; when the
invitation is pending it succeeds and writes the status value "expired" — the
same terminal value used for timed-out invitations, since no distinct
"cancelled" value exists among the status choices — leaving collaborator rows
unchanged. -/
theorem claim_C4_amended (db : DB) (actingUser : UserId) (invId : Nat) (now : Time)
    (inv : ProjectInvitation)
    (hwfI : db.wfInvitations = true)
    (hfind : db.invitations.find? (fun i => i.id == invId) = some inv)
    (hperm : ajaxManagePermitted db inv actingUser = true)
    (hfc : ProjectInvitation.full_clean db { inv with status := "expired" } = .ok ()) :
    INVITATION_STATUS.contains "cancelled" = false ∧
    (if inv.status = "pending" then
      (cancel_invitation_ajax db actingUser invId now).1 = .success ∧
      (cancel_invitation_ajax db actingUser invId now).2.invStatusById invId = some "expired" ∧
      (cancel_invitation_ajax db actingUser invId now).2.collaborators = db.collaborators
    else cancel_invitation_ajax db actingUser invId now = (.notPending, db)) := by
  refine ⟨by decide, ?_⟩
  by_cases hst : inv.status = "pending"
  · rw [if_pos hst]
    have hsave := save_ok db { inv with status := "expired" } now hfc
    have hbne : (inv.status != "pending") = false := by rw [hst]; simp
    have hres : cancel_invitation_ajax db actingUser invId now =
        (.success, dbSetInvitation db (saveExpiryDefault { inv with status := "expired" } now)) := by
      simp [cancel_invitation_ajax, hfind, hperm, hbne, hsave]
    rw [hres]
    refine ⟨rfl, ?_, dbSetInvitation_collaborators _ _⟩
    unfold DB.invStatusById
    rw [dbSetInvitation_find_id db inv (saveExpiryDefault { inv with status := "expired" } now)
      invId hwfI hfind (saveExpiryDefault_id _ _)]
    simp [saveExpiryDefault_status]
  · rw [if_neg hst]
    have hbne : (inv.status != "pending") = true := bne_iff_ne.mpr hst
    simp [cancel_invitation_ajax, hfind, hperm, hbne]

/-- Witness for the amended C4: the owner cancels the pending invitation 10;
the write is the "expired" status value. -/
theorem claim_C4_witness :
    INVITATION_STATUS.contains "cancelled" = false ∧
    (if invPending10.status = "pending" then
      (cancel_invitation_ajax dbInviteePending 0 10 500).1 = .success ∧
      (cancel_invitation_ajax dbInviteePending 0 10 500).2.invStatusById 10 = some "expired" ∧
      (cancel_invitation_ajax dbInviteePending 0 10 500).2.collaborators =
        dbInviteePending.collaborators
    else cancel_invitation_ajax dbInviteePending 0 10 500 = (.notPending, dbInviteePending)) :=
  claim_C4_amended dbInviteePending 0 10 500 invPending10 (by decide) rfl (by decide) rfl

end Collab

namespace Collab

/- Reduction lemmas for the accept path. -/

theorem accept_reduces_bound (db : DB) (inv : ProjectInvitation) (u : UserId) (now : Time)
    (v : UserId)
    (hexp : inv.is_expired now = false) (hstatus : inv.status = "pending")
    (hinvitee : inv.invitee = some v) :
    ProjectInvitation.accept db inv (some u) now =
      ProjectInvitation.save db { inv with status := "accepted", accepted_at := some now } now := by
  have hbne : (inv.status != "pending") = false := by rw [hstatus]; simp
  simp [ProjectInvitation.accept, hexp, hbne, hinvitee]

theorem accept_reduces_unbound (db : DB) (inv : ProjectInvitation) (u : UserId) (now : Time)
    (hexp : inv.is_expired now = false) (hstatus : inv.status = "pending")
    (hinvitee : inv.invitee = none) :
    ProjectInvitation.accept db inv (some u) now =
      ProjectInvitation.save db
        { inv with status := "accepted", accepted_at := some now, invitee := some u } now := by
  have hbne : (inv.status != "pending") = false := by rw [hstatus]; simp
  simp [ProjectInvitation.accept, hexp, hbne, hinvitee]

theorem save_cases (db : DB) (inv : ProjectInvitation) (now : Time) :
    (∃ e, ProjectInvitation.save db inv now = .error e) ∨
    ProjectInvitation.save db inv now =
      .ok (dbSetInvitation db (saveExpiryDefault inv now), saveExpiryDefault inv now) := by
  unfold ProjectInvitation.save
  cases hfc : ProjectInvitation.full_clean db inv with
  | error e => exact Or.inl ⟨e, rfl⟩
  | ok u => cases u; exact Or.inr rfl

/-- Claim C10 amended: for a pending, unexpired invitation that names an
invitee and passes the model validation, any authenticated user presenting
the token — the named invitee or anyone else — triggers acceptance: the
status becomes accepted and the already-set invitee field is left unchanged.
A collaborator row for the acting user (role viewer, added_by the inviter) is
created exactly when none existed; when the acting user already held a row,
the insert fails on the unique constraint after the invitation flip committed
and no new row is created.  (Email-only invitations cannot be accepted at
all: binding the invitee makes the own validation of the model reject the
save.) -/
theorem claim_C10_amended (db : DB) (actingUser v : UserId) (tok : Nat) (now : Time)
    (inv : ProjectInvitation)
    (hwfI : db.wfInvitations = true)
    (hfind : db.invitations.find? (fun i => i.token == tok) = some inv)
    (hstatus : inv.status = "pending")
    (hexp : inv.is_expired now = false)
    (hinvitee : inv.invitee = some v)
    (hfc : ProjectInvitation.full_clean db
      { inv with status := "accepted", accepted_at := some now } = .ok ()) :
    (accept_invitation db actingUser tok now).2.invStatus tok = some "accepted" ∧
    (accept_invitation db actingUser tok now).2.invInviteeByToken tok = some (some v) ∧
    (if db.collaborators.any (fun c => c.project == inv.project && c.user == actingUser) = true then
      (accept_invitation db actingUser tok now).1 = .integrityFailure ∧
      (accept_invitation db actingUser tok now).2.collaborators = db.collaborators
    else
      (accept_invitation db actingUser tok now).1 = .success ∧
      (accept_invitation db actingUser tok now).2.collaborators =
        db.collaborators ++ [{ project := inv.project, user := actingUser, role := "viewer", added_at := now, added_by := some inv.inviter }]) := by
  have hacc := accept_reduces_bound db inv actingUser now v hexp hstatus hinvitee
  have hsave := save_ok db { inv with status := "accepted", accepted_at := some now } now hfc
  have hbne : (inv.status != "pending") = false := by rw [hstatus]; simp
  have hfound := dbSetInvitation_find_token db inv
    (saveExpiryDefault { inv with status := "accepted", accepted_at := some now } now) tok
    hwfI hfind (saveExpiryDefault_id _ _) (saveExpiryDefault_token _ _)
  cases hany : db.collaborators.any (fun c => c.project == inv.project && c.user == actingUser) with
  | true =>
    have hres : accept_invitation db actingUser tok now =
        (.integrityFailure,
          dbSetInvitation db (saveExpiryDefault { inv with status := "accepted", accepted_at := some now } now)) := by
      simp [accept_invitation, hfind, hbne, hexp, hacc, hsave, collaboratorCreate,
        dbSetInvitation_collaborators, saveExpiryDefault_project, hany]
    rw [hres, if_pos rfl]
    refine ⟨?_, ?_, rfl, dbSetInvitation_collaborators _ _⟩
    · unfold DB.invStatus
      rw [hfound]
      simp [saveExpiryDefault_status]
    · unfold DB.invInviteeByToken
      rw [hfound]
      simp [saveExpiryDefault_invitee, hinvitee]
  | false =>
    have hres : accept_invitation db actingUser tok now =
        (.success,
          { dbSetInvitation db (saveExpiryDefault { inv with status := "accepted", accepted_at := some now } now) with
            collaborators := db.collaborators ++ [{ project := inv.project, user := actingUser, role := "viewer", added_at := now, added_by := some inv.inviter }] }) := by
      simp [accept_invitation, hfind, hbne, hexp, hacc, hsave, collaboratorCreate,
        dbSetInvitation_collaborators, saveExpiryDefault_project, saveExpiryDefault_inviter, hany]
    rw [hres, if_neg (by simp)]
    refine ⟨?_, ?_, rfl, rfl⟩
    · unfold DB.invStatus
      show ((dbSetInvitation db _).invitations.find? (fun i => i.token == tok)).map _ = _
      rw [hfound]
      simp [saveExpiryDefault_status]
    · unfold DB.invInviteeByToken
      show ((dbSetInvitation db _).invitations.find? (fun i => i.token == tok)).map _ = _
      rw [hfound]
      simp [saveExpiryDefault_invitee, hinvitee]

/-- Witness for the amended C10: carol (2), not the named invitee bob (1),
presents the token; she holds no collaborator row, so the else branch applies
— the row is created for carol and the invitee field still names bob. -/
theorem claim_C10_witness :
    (accept_invitation dbInviteePending 2 100 500).2.invStatus 100 = some "accepted" ∧
    (accept_invitation dbInviteePending 2 100 500).2.invInviteeByToken 100 = some (some 1) ∧
    (if dbInviteePending.collaborators.any
        (fun c => c.project == invPending10.project && c.user == 2) = true then
      (accept_invitation dbInviteePending 2 100 500).1 = .integrityFailure ∧
      (accept_invitation dbInviteePending 2 100 500).2.collaborators =
        dbInviteePending.collaborators
    else
      (accept_invitation dbInviteePending 2 100 500).1 = .success ∧
      (accept_invitation dbInviteePending 2 100 500).2.collaborators =
        dbInviteePending.collaborators ++ [{ project := 1, user := 2, role := "viewer", added_at := 500, added_by := some 0 }]) :=
  claim_C10_amended dbInviteePending 2 1 100 500 invPending10
    (by decide) rfl rfl (by decide) rfl rfl

/-- Claim C1 amended: for a pending, unexpired invitation, after the accept
view completes (normally or with an error), either the invitation is accepted
and exactly one collaborator row for (project, acting user) exists, or the
invitation is still pending and the collaborator table is exactly as before
(no row was created).  The stronger disjunct of the original claim — "pending and
no such row exists" — fails when the acting user already held a collaborator
row before the failed accept. -/
theorem claim_C1_amended (db : DB) (actingUser : UserId) (tok : Nat) (now : Time)
    (inv : ProjectInvitation)
    (hwfC : db.wfCollaborators = true)
    (hwfI : db.wfInvitations = true)
    (hfind : db.invitations.find? (fun i => i.token == tok) = some inv)
    (hstatus : inv.status = "pending")
    (hexp : inv.is_expired now = false) :
    ((accept_invitation db actingUser tok now).2.invStatus tok = some "accepted" ∧
      countCollab (accept_invitation db actingUser tok now).2 inv.project actingUser = 1) ∨
    ((accept_invitation db actingUser tok now).2.invStatus tok = some "pending" ∧
      (accept_invitation db actingUser tok now).2.collaborators = db.collaborators) := by
  have hbne : (inv.status != "pending") = false := by rw [hstatus]; simp
  have H : ∃ inv2 : ProjectInvitation,
      ProjectInvitation.accept db inv (some actingUser) now =
        ProjectInvitation.save db inv2 now ∧
      inv2.id = inv.id ∧ inv2.token = inv.token ∧ inv2.status = "accepted" ∧
      inv2.project = inv.project := by
    cases hinv : inv.invitee with
    | none =>
      exact ⟨_, accept_reduces_unbound db inv actingUser now hexp hstatus hinv,
        rfl, rfl, rfl, rfl⟩
    | some v =>
      exact ⟨_, accept_reduces_bound db inv actingUser now v hexp hstatus hinv,
        rfl, rfl, rfl, rfl⟩
  obtain ⟨inv2, hacc, hid2, htok2, hst2, hpr2⟩ := H
  rcases save_cases db inv2 now with ⟨e, hsv⟩ | hsv
  · have hres : accept_invitation db actingUser tok now = (.validationFailed e, db) := by
      simp [accept_invitation, hfind, hbne, hexp, hacc, hsv]
    right
    rw [hres]
    constructor
    · simp [DB.invStatus, hfind, hstatus]
    · rfl
  · have bid : (saveExpiryDefault inv2 now).id = inv.id := by
      rw [saveExpiryDefault_id]; exact hid2
    have btok : (saveExpiryDefault inv2 now).token = inv.token := by
      rw [saveExpiryDefault_token]; exact htok2
    have bst : (saveExpiryDefault inv2 now).status = "accepted" := by
      rw [saveExpiryDefault_status]; exact hst2
    have bpr : (saveExpiryDefault inv2 now).project = inv.project := by
      rw [saveExpiryDefault_project]; exact hpr2
    have hfound := dbSetInvitation_find_token db inv (saveExpiryDefault inv2 now) tok
      hwfI hfind bid btok
    cases hany : db.collaborators.any (fun x => x.project == inv.project && x.user == actingUser) with
    | true =>
      have hres : accept_invitation db actingUser tok now =
          (.integrityFailure, dbSetInvitation db (saveExpiryDefault inv2 now)) := by
        simp [accept_invitation, hfind, hbne, hexp, hacc, hsv, collaboratorCreate,
          dbSetInvitation_collaborators, bpr, hany]
      left
      rw [hres]
      constructor
      · unfold DB.invStatus
        rw [hfound]
        simp [bst]
      · unfold countCollab
        rw [dbSetInvitation_collaborators]
        exact count_one_of_pairwise db.collaborators inv.project actingUser hwfC hany
    | false =>
      have hres : accept_invitation db actingUser tok now =
          (.success,
            { dbSetInvitation db (saveExpiryDefault inv2 now) with
              collaborators := db.collaborators ++
                [{ project := inv.project, user := actingUser, role := "viewer", added_at := now, added_by := some (saveExpiryDefault inv2 now).inviter }] }) := by
        simp [accept_invitation, hfind, hbne, hexp, hacc, hsv, collaboratorCreate,
          dbSetInvitation_collaborators, bpr, hany]
      left
      rw [hres]
      constructor
      · unfold DB.invStatus
        show ((dbSetInvitation db _).invitations.find? (fun i => i.token == tok)).map _ = _
        rw [hfound]
        simp [bst]
      · unfold countCollab
        show (List.filter _ (db.collaborators ++ _)).length = 1
        rw [List.filter_append]
        rw [filter_eq_nil_of_any_eq_false _ _ hany]
        simp

/-- Witness for the amended C1: bob accepts the pending invitation naming
him; the invitation ends accepted with exactly one collaborator row. -/
theorem claim_C1_witness :
    ((accept_invitation dbInviteePending 1 100 500).2.invStatus 100 = some "accepted" ∧
      countCollab (accept_invitation dbInviteePending 1 100 500).2 1 1 = 1) ∨
    ((accept_invitation dbInviteePending 1 100 500).2.invStatus 100 = some "pending" ∧
      (accept_invitation dbInviteePending 1 100 500).2.collaborators =
        dbInviteePending.collaborators) :=
  claim_C1_amended dbInviteePending 1 100 500 invPending10
    (by decide) (by decide) rfl rfl (by decide)

end Collab
